import Mathlib

/-!
Shallow embedding of the WIM image-extraction engine of wimlib
(src/extract.c), used to check the natural-language specification of the
extraction planner, the stream extractor, the pipe reader, the filename
sanitizer, the feature check and the command validation against the code.

Conventions of the embedding:
* machine integers that only count (reference counts, byte totals,
  sequence numbers) are modelled as `Nat`;
* the C extract-flags bitmask becomes a structure of `Bool` fields, one
  per distinct bit, so `flags & F` becomes a field read and `flags |= F`
  a field update;
* blobs (`struct wim_lookup_table_entry`), inodes and dentries are
  referred to by `Nat` identifiers, with their attributes supplied by
  lookup functions, mirroring the pointer graph of the C code;
* per-extraction scratch state (`out_refcnt`, `stream_list`,
  `lte_dentries`, progress counters) is threaded explicitly through the
  planning functions;
* C functions that perform I/O are modelled as functions that thread an
  explicit environment recording whether each fallible operation
  succeeds, and produce a trace of the externally visible actions.
-/

namespace Wimlib

/-! ### Error codes

The numeric values of the `WIMLIB_ERR_*` enumeration are declared in the
public header `wimlib.h`, which is not part of the sources under
examination; only distinctness of the codes (and distinctness from 0,
the success value) matters to the claims.  Modelled from the spec:
`Exit/error codes: INVALID_PARAM, PATH_DOES_NOT_EXIST, NOMEM, OPEN,
READ, WRITE, ... NOT_A_REGULAR_FILE, ... UNSUPPORTED, NOT_PIPABLE,
INVALID_PIPABLE_WIM, ...`. -/

def WIMLIB_ERR_INVALID_PARAM : Nat := 2
def WIMLIB_ERR_NOMEM : Nat := 3
def WIMLIB_ERR_OPEN : Nat := 4
def WIMLIB_ERR_READ : Nat := 5
def WIMLIB_ERR_WRITE : Nat := 6
def WIMLIB_ERR_UNSUPPORTED : Nat := 7
def WIMLIB_ERR_NOT_A_REGULAR_FILE : Nat := 8
def WIMLIB_ERR_INVALID_PIPABLE_WIM : Nat := 9

/-! ### Extraction flags

One `Bool` per `WIMLIB_EXTRACT_FLAG_*` bit used in src/extract.c.  The
private bit `WIMLIB_EXTRACT_FLAG_FROM_PIPE` (0x40000000) is included;
`MULTI_IMAGE` is not needed by any claim. -/

structure ExtractFlags where
  ntfs : Bool := false
  hardlink : Bool := false
  symlink : Bool := false
  sequential : Bool := false
  rpfix : Bool := false
  norpfix : Bool := false
  unix_data : Bool := false
  no_acls : Bool := false
  strict_acls : Bool := false
  strict_short_names : Bool := false
  strict_timestamps : Bool := false
  strict_symlinks : Bool := false
  replace_invalid_filenames : Bool := false
  all_case_conflicts : Bool := false
  to_stdout : Bool := false
  from_pipe : Bool := false
  deriving Repr, DecidableEq

/-! ### Planning pass (blob reference planner)

Embedding of `ref_stream_to_extract` and
`dentry_add_streams_to_extract` (src/extract.c:119-226).

A blob is identified by a `Nat`; `BlobInfo` carries the two attributes
the planner reads: `wim_resource_size(lte)` and the `extracted_file`
field (non-null only during linked extraction of multiple images).

The inline-array/heap-array distinction for `lte_dentries` is a memory
layout detail: `lte_dentries[lte->out_refcnt] = dentry` followed by
`lte->out_refcnt++` appends to a single logical array, which is
modelled as a `List Nat` of dentry identifiers. -/

structure BlobInfo where
  size : Nat
  extracted_file : Option Nat := none
  deriving Repr, DecidableEq

structure AdsEntry where
  is_named_stream : Bool
  lte : Option Nat
  deriving Repr, DecidableEq

/-- The attributes of a `struct wim_inode` read by the planner:
whether `inode_is_encrypted_directory(inode)` holds, the resolved
unnamed stream blob (`inode_unnamed_lte_resolved`), and the alternate
data stream entries. -/
structure InodeInfo where
  is_encrypted_directory : Bool
  unnamed : Option Nat
  ads : List AdsEntry
  deriving Repr, DecidableEq

/-- The attributes of a `struct wim_dentry` read by the planner: its
identity, its `extraction_skipped` flag (set by the earlier
name-sanitization pass) and the identifier of its inode. -/
structure DentryInfo where
  id : Nat
  skipped : Bool
  inode : Nat
  deriving Repr, DecidableEq

/-- The fields of `struct apply_ctx` that the planner consults:
the extract flags and the backend's supported features
(`ctx->supported_features.hard_links`,
`ctx->supported_features.named_data_streams`). -/
structure PlanCtx where
  flags : ExtractFlags
  hard_links : Bool
  named_data_streams : Bool
  deriving Repr, DecidableEq

/-- `is_linked_extraction` (src/extract.c:105-110). -/
def is_linked_extraction (ctx : PlanCtx) : Bool :=
  ctx.flags.hardlink || ctx.flags.symlink

/-- `can_extract_named_data_streams` (src/extract.c:112-117). -/
def can_extract_named_data_streams (ctx : PlanCtx) : Bool :=
  ctx.named_data_streams && !(is_linked_extraction ctx)

/-- The per-extraction scratch state mutated by the planner:
`out_refcnt` per blob, the inode `i_visited` flags, the extraction list
`ctx->stream_list` (blob identifiers, appended at the tail), the
per-blob dentry back-reference arrays, and the three counters
`ctx->progress.extract.total_bytes`, `ctx->progress.extract.num_streams`
and `ctx->num_streams_remaining`. -/
structure PlanState where
  out_refcnt : Nat → Nat
  visited : Nat → Bool
  stream_list : List Nat
  lte_dentries : Nat → List Nat
  total_bytes : Nat
  num_streams : Nat
  num_streams_remaining : Nat

/-- The all-zero scratch state established before planning by
`dentry_resolve_and_zero_lte_refcnt` (src/extract.c:75-103) together
with the zero-initialized `apply_ctx` of `extract_tree`. -/
def initialPlanState : PlanState :=
  { out_refcnt := fun _ => 0
    visited := fun _ => false
    stream_list := []
    lte_dentries := fun _ => []
    total_bytes := 0
    num_streams := 0
    num_streams_remaining := 0 }

/-- `ref_stream_to_extract` (src/extract.c:119-179).  `lte?` is the
(possibly null) resolved lookup-table entry of one stream of `dentry`;
`blobs` supplies the attributes of each blob.  Memory allocation for
the heap-grown dentry array is modelled as always succeeding, so the
`WIMLIB_ERR_NOMEM` path is absent and the function is total. -/
def ref_stream_to_extract (ctx : PlanCtx) (blobs : Nat → BlobInfo)
    (lte? : Option Nat) (dentry : Nat) (s : PlanState) : PlanState :=
  match lte? with
  | none => s
  | some b =>
    let s1 :=
      if !(is_linked_extraction ctx) ||
          (s.out_refcnt b = 0 && (blobs b).extracted_file = none) then
        { s with total_bytes := s.total_bytes + (blobs b).size
                 num_streams := s.num_streams + 1 }
      else s
    let s2 :=
      if s1.out_refcnt b = 0 then
        { s1 with stream_list := s1.stream_list ++ [b]
                  num_streams_remaining := s1.num_streams_remaining + 1 }
      else s1
    let s3 :=
      if ctx.flags.sequential then
        { s2 with lte_dentries := fun b' =>
            if b' = b then s2.lte_dentries b ++ [dentry] else s2.lte_dentries b' }
      else s2
    { s3 with out_refcnt := fun b' =>
        if b' = b then s3.out_refcnt b + 1 else s3.out_refcnt b' }

/-- `dentry_add_streams_to_extract` (src/extract.c:187-226) for one
dentry, reading inode attributes through `inodes`. -/
def dentry_add_streams_to_extract (ctx : PlanCtx) (blobs : Nat → BlobInfo)
    (inodes : Nat → InodeInfo) (d : DentryInfo) (s : PlanState) : PlanState :=
  if d.skipped then s
  else if s.visited d.inode && ctx.hard_links then s
  else
    let ino := inodes d.inode
    let s1 :=
      if !ino.is_encrypted_directory then
        ref_stream_to_extract ctx blobs ino.unnamed d.id s
      else s
    let s2 :=
      if can_extract_named_data_streams ctx then
        ino.ads.foldl
          (fun acc e =>
            if e.is_named_stream then
              ref_stream_to_extract ctx blobs e.lte d.id acc
            else acc) s1
      else s1
    { s2 with visited := fun i => if i = d.inode then true else s2.visited i }

/-- The planning pass: `for_dentry_in_tree(ctx.extract_root,
dentry_add_streams_to_extract, &ctx)` (src/extract.c:1965-1966), with
`ds` the dentries of the extraction tree in traversal order, starting
from the zeroed scratch state. -/
def plan_streams (ctx : PlanCtx) (blobs : Nat → BlobInfo)
    (inodes : Nat → InodeInfo) (ds : List DentryInfo) : PlanState :=
  ds.foldl (fun s d => dentry_add_streams_to_extract ctx blobs inodes d s)
    initialPlanState

/-- Number of references from one dentry `d` to blob `b` via streams
that the planner extracts: the unnamed stream when the inode is not an
encrypted directory, plus, when named data streams are extractable in
this mode, the named ADS entries. -/
def dentryRefCount (ctx : PlanCtx) (inodes : Nat → InodeInfo)
    (d : DentryInfo) (b : Nat) : Nat :=
  let ino := inodes d.inode
  (if !ino.is_encrypted_directory && ino.unnamed = some b then 1 else 0) +
  (if can_extract_named_data_streams ctx then
    (ino.ads.filter (fun e => e.is_named_stream && e.lte = some b)).length
   else 0)

/-- The dentries that actually contribute stream references during
planning: skipped dentries never do, and when the backend supports
hard links only the first non-skipped dentry of each inode does
(`inode->i_visited` guard, src/extract.c:199-200).  `seen` is the set
of inode identifiers already visited. -/
def planContributors (hardLinks : Bool) :
    List DentryInfo → List Nat → List DentryInfo
  | [], _ => []
  | d :: ds, seen =>
    if d.skipped then planContributors hardLinks ds seen
    else if hardLinks && seen.contains d.inode then
      planContributors hardLinks ds seen
    else d :: planContributors hardLinks ds (d.inode :: seen)

/-! ### Lemmas about the planning pass -/

theorem ref_stream_out_refcnt_fun (ctx : PlanCtx) (blobs : Nat → BlobInfo)
    (b0 : Nat) (dentry : Nat) (s : PlanState) :
    (ref_stream_to_extract ctx blobs (some b0) dentry s).out_refcnt =
      fun b' => if b' = b0 then s.out_refcnt b0 + 1 else s.out_refcnt b' := by
  dsimp only [ref_stream_to_extract]
  split_ifs <;> rfl

theorem ref_stream_out_refcnt (ctx : PlanCtx) (blobs : Nat → BlobInfo)
    (lte? : Option Nat) (dentry : Nat) (s : PlanState) (b : Nat) :
    (ref_stream_to_extract ctx blobs lte? dentry s).out_refcnt b =
      s.out_refcnt b + (if lte? = some b then 1 else 0) := by
  cases lte? with
  | none => simp [ref_stream_to_extract]
  | some b0 =>
    rw [ref_stream_out_refcnt_fun]
    by_cases hb : b = b0
    · subst hb; simp
    · simp only [hb, if_false, Option.some.injEq]
      have : ¬ (b0 = b) := fun h => hb h.symm
      simp [this]

theorem ref_stream_visited (ctx : PlanCtx) (blobs : Nat → BlobInfo)
    (lte? : Option Nat) (dentry : Nat) (s : PlanState) :
    (ref_stream_to_extract ctx blobs lte? dentry s).visited = s.visited := by
  cases lte? with
  | none => simp [ref_stream_to_extract]
  | some b0 =>
    dsimp only [ref_stream_to_extract]
    split_ifs <;> rfl

theorem ads_fold_out_refcnt (ctx : PlanCtx) (blobs : Nat → BlobInfo)
    (dentry : Nat) (ads : List AdsEntry) (s : PlanState) (b : Nat) :
    (ads.foldl
      (fun acc e =>
        if e.is_named_stream then
          ref_stream_to_extract ctx blobs e.lte dentry acc
        else acc) s).out_refcnt b =
      s.out_refcnt b +
        (ads.filter (fun e => e.is_named_stream && e.lte = some b)).length := by
  induction ads generalizing s with
  | nil => simp
  | cons e rest ih =>
    simp only [List.foldl_cons, List.filter_cons]
    by_cases hn : e.is_named_stream
    · by_cases hl : e.lte = some b
      · simp [hn, hl, ih, ref_stream_out_refcnt]
        omega
      · simp [hn, hl, ih, ref_stream_out_refcnt]
    · simp [hn, ih]

theorem ads_fold_visited (ctx : PlanCtx) (blobs : Nat → BlobInfo)
    (dentry : Nat) (ads : List AdsEntry) (s : PlanState) :
    (ads.foldl
      (fun acc e =>
        if e.is_named_stream then
          ref_stream_to_extract ctx blobs e.lte dentry acc
        else acc) s).visited = s.visited := by
  induction ads generalizing s with
  | nil => simp
  | cons e rest ih =>
    simp only [List.foldl_cons]
    by_cases hn : e.is_named_stream
    · simp [hn, ih, ref_stream_visited]
    · simp [hn, ih]

/-- Effect of processing one contributing dentry on a blob's
`out_refcnt`: it grows by exactly the number of stream references of
that dentry to the blob. -/
theorem dentry_add_out_refcnt (ctx : PlanCtx) (blobs : Nat → BlobInfo)
    (inodes : Nat → InodeInfo) (d : DentryInfo) (s : PlanState) (b : Nat)
    (hskip : d.skipped = false)
    (hvis : (s.visited d.inode && ctx.hard_links) = false) :
    (dentry_add_streams_to_extract ctx blobs inodes d s).out_refcnt b =
      s.out_refcnt b + dentryRefCount ctx inodes d b := by
  simp only [dentry_add_streams_to_extract, hskip, hvis, Bool.false_eq_true,
    if_false, dentryRefCount]
  by_cases henc : (inodes d.inode).is_encrypted_directory
  · by_cases hads : can_extract_named_data_streams ctx
    · simp [henc, hads, ads_fold_out_refcnt]
    · simp [henc, hads]
  · by_cases hads : can_extract_named_data_streams ctx
    · simp [henc, hads, ads_fold_out_refcnt, ref_stream_out_refcnt]
      split_ifs <;> simp_all
      omega
    · simp [henc, hads, ref_stream_out_refcnt]

theorem dentry_add_visited (ctx : PlanCtx) (blobs : Nat → BlobInfo)
    (inodes : Nat → InodeInfo) (d : DentryInfo) (s : PlanState)
    (hskip : d.skipped = false)
    (hvis : (s.visited d.inode && ctx.hard_links) = false) :
    (dentry_add_streams_to_extract ctx blobs inodes d s).visited =
      fun i => if i = d.inode then true else s.visited i := by
  simp only [dentry_add_streams_to_extract, hskip, hvis, Bool.false_eq_true,
    if_false]
  split_ifs <;> simp [ads_fold_visited, ref_stream_visited]

theorem dentry_add_skipped (ctx : PlanCtx) (blobs : Nat → BlobInfo)
    (inodes : Nat → InodeInfo) (d : DentryInfo) (s : PlanState)
    (h : d.skipped = true ∨ (s.visited d.inode && ctx.hard_links) = true) :
    dentry_add_streams_to_extract ctx blobs inodes d s = s := by
  rcases h with h | h <;> simp [dentry_add_streams_to_extract, h]

/-- Main fold invariant: given that the visited flags agree with the
`seen` inode set, the planning fold adds exactly the reference counts
of the contributing dentries. -/
theorem plan_fold_out_refcnt (ctx : PlanCtx) (blobs : Nat → BlobInfo)
    (inodes : Nat → InodeInfo) (ds : List DentryInfo) (s : PlanState)
    (seen : List Nat)
    (hinv : ∀ i, s.visited i = seen.contains i) (b : Nat) :
    (ds.foldl (fun acc d => dentry_add_streams_to_extract ctx blobs inodes d acc)
        s).out_refcnt b =
      s.out_refcnt b +
        ((planContributors ctx.hard_links ds seen).map
          (fun d => dentryRefCount ctx inodes d b)).sum := by
  induction ds generalizing s seen with
  | nil => simp [planContributors]
  | cons d rest ih =>
    simp only [List.foldl_cons]
    by_cases hskip : d.skipped
    · rw [dentry_add_skipped ctx blobs inodes d s (Or.inl hskip)]
      rw [ih s seen hinv]
      simp [planContributors, hskip]
    · by_cases hvis : (s.visited d.inode && ctx.hard_links) = true
      · rw [dentry_add_skipped ctx blobs inodes d s (Or.inr hvis)]
        rw [ih s seen hinv]
        have hseen : seen.contains d.inode = true := by
          have := hinv d.inode
          rcases Bool.and_eq_true _ _ |>.mp hvis with ⟨h1, _⟩
          rw [← this]; exact h1
        have hhl : ctx.hard_links = true :=
          (Bool.and_eq_true _ _ |>.mp hvis).2
        have hmem : d.inode ∈ seen := by simpa using hseen
        simp [planContributors, hskip, hhl, hmem]
      · have hskip' : d.skipped = false := by simpa using hskip
        have hvis' : (s.visited d.inode && ctx.hard_links) = false := by
          simpa using hvis
        rw [ih _ (d.inode :: seen)
          (by
            intro i
            rw [dentry_add_visited ctx blobs inodes d s hskip' hvis']
            by_cases hi : i = d.inode <;> simp [hi, hinv i])]
        rw [dentry_add_out_refcnt ctx blobs inodes d s b hskip' hvis']
        have hcontrib :
            planContributors ctx.hard_links (d :: rest) seen =
              d :: planContributors ctx.hard_links rest (d.inode :: seen) := by
          simp only [planContributors, hskip', Bool.false_eq_true, if_false]
          split_ifs with h
          · rcases Bool.and_eq_true _ _ |>.mp h with ⟨hhl, hcont⟩
            have := hinv d.inode
            rw [hcont] at this
            rw [this, hhl] at hvis'
            simp at hvis'
          · rfl
        rw [hcontrib]
        simp
        omega

/-- Per-field effect of `ref_stream_to_extract` on the extraction list,
the stream counter and the progress byte total. -/
theorem ref_stream_fields (ctx : PlanCtx) (blobs : Nat → BlobInfo)
    (b dentry : Nat) (s : PlanState) :
    (ref_stream_to_extract ctx blobs (some b) dentry s).stream_list =
      (if s.out_refcnt b = 0 then s.stream_list ++ [b] else s.stream_list) ∧
    (ref_stream_to_extract ctx blobs (some b) dentry s).num_streams_remaining =
      (if s.out_refcnt b = 0 then s.num_streams_remaining + 1
       else s.num_streams_remaining) ∧
    (ref_stream_to_extract ctx blobs (some b) dentry s).total_bytes =
      (if !(is_linked_extraction ctx) ||
          (s.out_refcnt b = 0 && (blobs b).extracted_file = none) then
        s.total_bytes + (blobs b).size
       else s.total_bytes) := by
  dsimp only [ref_stream_to_extract]
  split_ifs <;> simp_all

/-! ### Claim C1 -/

/-- Concrete counterexample data for C1: two dentries (hard links)
sharing inode 0, whose unnamed stream is blob 0, on a backend that
supports hard links. -/
def c1ctx : PlanCtx :=
  { flags := {}, hard_links := true, named_data_streams := true }

def c1blobs : Nat → BlobInfo := fun _ => { size := 5 }

def c1inodes : Nat → InodeInfo :=
  fun _ => { is_encrypted_directory := false, unnamed := some 0, ads := [] }

def c1ds : List DentryInfo :=
  [{ id := 0, skipped := false, inode := 0 },
   { id := 1, skipped := false, inode := 0 }]

/-- C1, as stated, is false: with hard links supported and two
non-skipped dentries sharing one inode that references blob 0 via its
unnamed stream, planning leaves `out_refcnt = 1`, while the number of
pairs (d, s) with d a non-skipped dentry referencing blob 0 via stream
s is 2.  The second dentry of a shared inode contributes no new
references (the `i_visited` guard, src/extract.c:199-200). -/
theorem planning_refcnt_counts_all_pairs_cex :
    ¬ ((plan_streams c1ctx c1blobs c1inodes c1ds).out_refcnt 0 =
      ((c1ds.filter (fun d => !d.skipped)).map
        (fun d => dentryRefCount c1ctx c1inodes d 0)).sum) := by
  decide

/-- C1 (amended): after the planning pass, for every blob B,
`B.out_refcnt` equals the number of pairs (d, s) such that dentry d
references B via an extracted stream s, where d ranges over the
contributing dentries: the non-skipped dentries, restricted — when the
backend supports hard links — to the first non-skipped dentry of each
inode (second and subsequent dentries sharing an inode contribute no
new references). -/
theorem planning_refcnt_counts_contributor_pairs (ctx : PlanCtx)
    (blobs : Nat → BlobInfo) (inodes : Nat → InodeInfo)
    (ds : List DentryInfo) (b : Nat) :
    (plan_streams ctx blobs inodes ds).out_refcnt b =
      ((planContributors ctx.hard_links ds []).map
        (fun d => dentryRefCount ctx inodes d b)).sum := by
  have h := plan_fold_out_refcnt ctx blobs inodes ds initialPlanState []
    (fun i => rfl) b
  simpa [plan_streams, initialPlanState] using h

/-! ### Claim C2 -/

/-- Concrete data for C2: an ordinary (non-linked) extraction and a
blob of size 5. -/
def c2ctx : PlanCtx :=
  { flags := {}, hard_links := false, named_data_streams := true }

def c2blobs : Nat → BlobInfo := fun _ => { size := 5 }

/-- State after the first reference to blob 0. -/
def c2s1 : PlanState :=
  ref_stream_to_extract c2ctx c2blobs (some 0) 0 initialPlanState

/-- C2, as stated, is false: in an ordinary (non-linked) extraction,
referencing a blob whose `out_refcnt` is already nonzero still adds the
blob's uncompressed size to the progress `total_bytes`
(src/extract.c:126-131 adds it on every reference unless doing a
linked extraction), even though the extraction-list append and the
`num_streams_remaining` increment are indeed skipped. -/
theorem ref_stream_nonzero_refcnt_cex :
    c2s1.out_refcnt 0 ≠ 0 ∧
    (ref_stream_to_extract c2ctx c2blobs (some 0) 1 c2s1).total_bytes =
      c2s1.total_bytes + 5 ∧
    c2s1.total_bytes = 5 := by
  decide

/-- C2 (amended): when a stream's blob is referenced and its
`out_refcnt` is 0, the blob is appended to the extraction list and
`num_streams_remaining` is incremented, and — provided the extraction
is not a linked extraction, or the blob's `extracted_file` is unset —
its uncompressed size is added to `total_bytes`.  When `out_refcnt` is
already nonzero, the append and the increment do not happen, but in a
non-linked extraction `total_bytes` is still increased by the blob's
size for that reference; only in a linked extraction is `total_bytes`
left unchanged. -/
theorem ref_stream_refcnt_zero_vs_nonzero (ctx : PlanCtx)
    (blobs : Nat → BlobInfo) (b dentry : Nat) (s : PlanState) :
    ((s.out_refcnt b = 0 →
      (ref_stream_to_extract ctx blobs (some b) dentry s).stream_list =
        s.stream_list ++ [b] ∧
      (ref_stream_to_extract ctx blobs (some b) dentry s).num_streams_remaining =
        s.num_streams_remaining + 1 ∧
      (is_linked_extraction ctx = false ∨ (blobs b).extracted_file = none →
        (ref_stream_to_extract ctx blobs (some b) dentry s).total_bytes =
          s.total_bytes + (blobs b).size)) ∧
    (s.out_refcnt b ≠ 0 →
      (ref_stream_to_extract ctx blobs (some b) dentry s).stream_list =
        s.stream_list ∧
      (ref_stream_to_extract ctx blobs (some b) dentry s).num_streams_remaining =
        s.num_streams_remaining ∧
      (is_linked_extraction ctx = false →
        (ref_stream_to_extract ctx blobs (some b) dentry s).total_bytes =
          s.total_bytes + (blobs b).size) ∧
      (is_linked_extraction ctx = true →
        (ref_stream_to_extract ctx blobs (some b) dentry s).total_bytes =
          s.total_bytes))) := by
  obtain ⟨hsl, hnsr, htb⟩ := ref_stream_fields ctx blobs b dentry s
  constructor
  · intro h0
    refine ⟨by simp [hsl, h0], by simp [hnsr, h0], ?_⟩
    rintro (hl | he)
    · simp [htb, h0, hl]
    · simp [htb, h0, he]
  · intro h0
    refine ⟨by simp [hsl, h0], by simp [hnsr, h0], ?_, ?_⟩
    · intro hl; simp [htb, hl]
    · intro hl; simp [htb, hl, h0]

/-- Witness for C2: at a concrete fresh blob, the theorem's zero-case
hypotheses are dischargeable and yield the three updates. -/
theorem ref_stream_refcnt_zero_vs_nonzero_witness :
    (ref_stream_to_extract c2ctx c2blobs (some 0) 0 initialPlanState).stream_list =
      initialPlanState.stream_list ++ [0] ∧
    (ref_stream_to_extract c2ctx c2blobs (some 0) 0
      initialPlanState).num_streams_remaining =
      initialPlanState.num_streams_remaining + 1 ∧
    (ref_stream_to_extract c2ctx c2blobs (some 0) 0 initialPlanState).total_bytes =
      initialPlanState.total_bytes + (c2blobs 0).size :=
  ⟨((ref_stream_refcnt_zero_vs_nonzero c2ctx c2blobs 0 0 initialPlanState).1
      rfl).1,
   ((ref_stream_refcnt_zero_vs_nonzero c2ctx c2blobs 0 0 initialPlanState).1
      rfl).2.1,
   ((ref_stream_refcnt_zero_vs_nonzero c2ctx c2blobs 0 0 initialPlanState).1
      rfl).2.2 (Or.inl rfl)⟩

/-! ### Stream extractor: `extract_stream_instances` (src/extract.c:1103-1190)

The function performs I/O; the embedding threads an environment
recording whether each fallible operation succeeds and produces a trace
of the externally visible actions.  A blob's `lte_dentries[0 ..
out_refcnt)` back-reference array is passed as a list of dentry
identifiers, so `lte->out_refcnt` is its length.  `dentry->tmp_flag`
is modelled by the accumulating `done` list (all flags are clear on
entry, and the C code clears them again before returning).  Memory
allocation (`memdup` of the substitute entry) is modelled as always
succeeding. -/

/-- The lookup-table entry an `extract_streams` call reads the stream
from: either the original entry for blob `b`, or the substitute entry
(`lte_tmp`, `RESOURCE_IN_FILE_ON_DISK`) pointing at the temporary file
holding blob `b`. -/
inductive StreamSrc where
  | original (b : Nat)
  | tempFile (b : Nat)
  deriving Repr, DecidableEq

inductive ExtractAction where
  /-- `topen(stream_tmp_filename, O_WRONLY|O_CREAT|O_TRUNC)` creates
  the temporary file. -/
  | createTemp
  /-- `extract_wim_resource_to_fd` writes blob `b` into the temporary
  file. -/
  | extractToTemp (b : Nat)
  /-- `extract_streams` writes the stream to the extraction path of
  one dentry, reading from `src`. -/
  | writeStreams (dentry : Nat) (src : StreamSrc)
  /-- `tunlink(stream_tmp_filename)`. -/
  | unlinkTemp
  deriving Repr, DecidableEq

structure ExtractEnv where
  /-- `ttempnam` succeeds. -/
  tempnamOk : Bool
  /-- `topen` of the temporary file succeeds. -/
  openOk : Bool
  /-- `extract_wim_resource_to_fd` into the temporary file and the
  following `filedes_close` succeed. -/
  writeTempOk : Bool
  /-- `build_extraction_path` produces a path for the dentry. -/
  buildPathOk : Nat → Bool
  /-- `extract_streams` succeeds for the dentry. -/
  extractOk : Nat → Bool

/-- The per-dentry fan-out loop of `extract_stream_instances`
(src/extract.c:1164-1176).  A failing `extract_streams` (modelled as
returning `WIMLIB_ERR_WRITE`) aborts the loop. -/
def extract_instances_loop (env : ExtractEnv) (src : StreamSrc) :
    List Nat → List Nat → Nat × List ExtractAction
  | [], _ => (0, [])
  | d :: rest, done =>
    if done.contains d then extract_instances_loop env src rest done
    else if !env.buildPathOk d then extract_instances_loop env src rest done
    else if env.extractOk d then
      let r := extract_instances_loop env src rest (d :: done)
      (r.1, ExtractAction.writeStreams d src :: r.2)
    else (WIMLIB_ERR_WRITE, [ExtractAction.writeStreams d src])

/-- `extract_stream_instances` (src/extract.c:1103-1190) for the blob
`b` whose back-reference array is `dentries`. -/
def extract_stream_instances (env : ExtractEnv) (b : Nat)
    (dentries : List Nat) (can_seek : Bool) : Nat × List ExtractAction :=
  if can_seek || dentries.length < 2 then
    extract_instances_loop env (StreamSrc.original b) dentries []
  else if !env.tempnamOk then (WIMLIB_ERR_OPEN, [])
  else if !env.openOk then (WIMLIB_ERR_OPEN, [])
  else if !env.writeTempOk then
    (WIMLIB_ERR_WRITE,
     [ExtractAction.createTemp, ExtractAction.extractToTemp b,
      ExtractAction.unlinkTemp])
  else
    let r := extract_instances_loop env (StreamSrc.tempFile b) dentries []
    (r.1,
     ExtractAction.createTemp :: ExtractAction.extractToTemp b ::
       (r.2 ++ [ExtractAction.unlinkTemp]))

/-- Every action emitted by the fan-out loop is a stream write from
the given source. -/
theorem extract_instances_loop_actions (env : ExtractEnv) (src : StreamSrc)
    (ds done : List Nat) :
    ∀ a ∈ (extract_instances_loop env src ds done).2,
      ∃ d, a = ExtractAction.writeStreams d src := by
  induction ds generalizing done with
  | nil => simp [extract_instances_loop]
  | cons d rest ih =>
    simp only [extract_instances_loop]
    split_ifs with h1 h2 h3
    · exact ih done
    · exact ih done
    · intro a ha
      rcases List.mem_cons.mp ha with h | h
      · exact ⟨d, h⟩
      · exact ih (d :: done) a h
    · intro a ha
      rcases List.mem_cons.mp ha with h | h
      · exact ⟨d, h⟩
      · simp at h

theorem loop_count_createTemp (env : ExtractEnv) (src : StreamSrc)
    (ds done : List Nat) :
    (extract_instances_loop env src ds done).2.count ExtractAction.createTemp = 0 := by
  rw [List.count_eq_zero]
  intro hmem
  rcases extract_instances_loop_actions env src ds done _ hmem with ⟨d, hd⟩
  simp at hd

theorem loop_count_unlinkTemp (env : ExtractEnv) (src : StreamSrc)
    (ds done : List Nat) :
    (extract_instances_loop env src ds done).2.count ExtractAction.unlinkTemp = 0 := by
  rw [List.count_eq_zero]
  intro hmem
  rcases extract_instances_loop_actions env src ds done _ hmem with ⟨d, hd⟩
  simp at hd

theorem loop_count_extractToTemp (env : ExtractEnv) (src : StreamSrc)
    (ds done : List Nat) (b : Nat) :
    (extract_instances_loop env src ds done).2.count
      (ExtractAction.extractToTemp b) = 0 := by
  rw [List.count_eq_zero]
  intro hmem
  rcases extract_instances_loop_actions env src ds done _ hmem with ⟨d, hd⟩
  simp at hd

/-! ### Claim C3 -/

/-- C3: in sequential extraction of a blob whose source is
non-seekable and whose `out_refcnt` is at least 2: provided the
temporary filename and file can be created, the trace contains exactly
one temporary-file creation and exactly one extraction of the blob
into it, every per-dentry stream write reads from the substitute entry
over the temporary file, and the very last action before returning —
on the success path and on every error path — is unlinking the
temporary file.  If the source is seekable or `out_refcnt` is less
than 2, no temporary file is ever created or unlinked and every stream
write reads the blob directly. -/
theorem extract_stream_instances_tempfile (env : ExtractEnv) (b : Nat)
    (dentries : List Nat) (can_seek : Bool) :
    (can_seek = false → 2 ≤ dentries.length →
      (env.tempnamOk = true → env.openOk = true →
        (extract_stream_instances env b dentries can_seek).2.count
            ExtractAction.createTemp = 1 ∧
        (extract_stream_instances env b dentries can_seek).2.count
            (ExtractAction.extractToTemp b) = 1 ∧
        (extract_stream_instances env b dentries can_seek).2.getLast? =
            some ExtractAction.unlinkTemp) ∧
      (∀ d src,
        ExtractAction.writeStreams d src ∈
            (extract_stream_instances env b dentries can_seek).2 →
          src = StreamSrc.tempFile b)) ∧
    (can_seek = true ∨ dentries.length < 2 →
      (extract_stream_instances env b dentries can_seek).2.count
          ExtractAction.createTemp = 0 ∧
      (extract_stream_instances env b dentries can_seek).2.count
          (ExtractAction.extractToTemp b) = 0 ∧
      (extract_stream_instances env b dentries can_seek).2.count
          ExtractAction.unlinkTemp = 0 ∧
      (∀ d src,
        ExtractAction.writeStreams d src ∈
            (extract_stream_instances env b dentries can_seek).2 →
          src = StreamSrc.original b)) := by
  constructor
  · intro hseek hlen
    have hcond : (can_seek || dentries.length < 2) = false := by
      simp [hseek]; omega
    constructor
    · intro htmp hopen
      by_cases hw : env.writeTempOk
      · simp only [extract_stream_instances, hcond, htmp, hopen, hw,
          Bool.false_eq_true, if_false, Bool.not_true, if_true]
        refine ⟨?_, ?_, ?_⟩
        · simp [loop_count_createTemp]
        · simp [loop_count_extractToTemp]
        · rw [← List.cons_append, ← List.cons_append, List.getLast?_concat]
      · simp only [extract_stream_instances, hcond, htmp, hopen, hw,
          Bool.false_eq_true, if_false, Bool.not_true, Bool.not_false,
          if_true]
        simp
    · intro d src hmem
      by_cases htmp : env.tempnamOk <;>
        by_cases hopen : env.openOk <;>
          by_cases hw : env.writeTempOk <;>
            simp [extract_stream_instances, hcond, htmp, hopen, hw] at hmem <;>
            (rcases extract_instances_loop_actions env
               (StreamSrc.tempFile b) dentries [] _ hmem with ⟨d', hd'⟩
             simp only [ExtractAction.writeStreams.injEq] at hd'
             exact hd'.2)
  · intro hcase
    have hcond : (can_seek || dentries.length < 2) = true := by
      rcases hcase with h | h
      · simp [h]
      · simp [h]
    simp only [extract_stream_instances, hcond, if_true]
    refine ⟨loop_count_createTemp _ _ _ _, loop_count_extractToTemp _ _ _ _ _,
      loop_count_unlinkTemp _ _ _ _, ?_⟩
    intro d src hmem
    rcases extract_instances_loop_actions env (StreamSrc.original b)
      dentries [] _ hmem with ⟨d', hd'⟩
    simp only [ExtractAction.writeStreams.injEq] at hd'
    exact hd'.2

/-- Environment in which every filesystem operation succeeds. -/
def allOkEnv : ExtractEnv :=
  { tempnamOk := true, openOk := true, writeTempOk := true,
    buildPathOk := fun _ => true, extractOk := fun _ => true }

/-- Witness for C3 at a concrete non-seekable blob with three
back-references. -/
theorem extract_stream_instances_tempfile_witness :
    (extract_stream_instances allOkEnv 0 [1, 2, 3] false).2.count
        ExtractAction.createTemp = 1 ∧
    (extract_stream_instances allOkEnv 0 [1, 2, 3] false).2.count
        (ExtractAction.extractToTemp 0) = 1 ∧
    (extract_stream_instances allOkEnv 0 [1, 2, 3] false).2.getLast? =
        some ExtractAction.unlinkTemp :=
  ((extract_stream_instances_tempfile allOkEnv 0 [1, 2, 3] false).1
    rfl (by decide)).1 rfl rfl

/-! ### Pipe extraction: `extract_streams_from_pipe`
(src/extract.c:1272-1319) with `read_pwm_stream_header`
(src/extract.c:1216-1260) and `skip_pwm_stream` (src/extract.c:1262-1270)

The pipe delivers a sequence of records.  `read_pwm_stream_header`
either consumes an embedded WIM header (magic `PWM_MAGIC`, leaving the
scratch entry with `RESOURCE_NONEXISTENT`) or fills the scratch entry
from a stream header (magic `PWM_STREAM_MAGIC`) carrying the SHA-1
digest and the flags word, whose `WIM_RESHDR_FLAG_METADATA` bit is
modelled by the `metadata` field.  Digests are modelled as `Nat`;
`lookup` is `__lookup_resource` on the target's lookup table and
`refcnt` gives each blob's `out_refcnt` after planning (pipe
extraction never changes it). -/

inductive PwmRecord where
  | header
  | stream (digest : Nat) (metadata : Bool)
  deriving Repr, DecidableEq

inductive PipeAction where
  /-- The bytes of an embedded WIM header were consumed. -/
  | consumedHeader
  /-- `extract_stream_instances` ran for the blob with this digest. -/
  | extracted (digest : Nat)
  /-- `skip_pwm_stream` consumed the record's bytes without
  extracting. -/
  | skipped (digest : Nat) (metadata : Bool)
  deriving Repr, DecidableEq

structure PipeEnv where
  /-- `extract_stream_instances` succeeds for the digest. -/
  extractOk : Nat → Bool
  /-- `skip_pwm_stream` succeeds for the digest. -/
  skipOk : Nat → Bool

/-- `extract_streams_from_pipe` (src/extract.c:1272-1319): loop while
`num_streams_remaining` is nonzero, reading one record per iteration.
Running out of records models `full_read` failing on the pipe
(`WIMLIB_ERR_READ`).  Returns the result code, the action trace and
the final `num_streams_remaining`. -/
def extract_streams_from_pipe (env : PipeEnv) (lookup : Nat → Option Nat)
    (refcnt : Nat → Nat) :
    List PwmRecord → Nat → Nat × List PipeAction × Nat
  | _, 0 => (0, [], 0)
  | [], Nat.succ remaining => (WIMLIB_ERR_READ, [], Nat.succ remaining)
  | PwmRecord.header :: rest, Nat.succ remaining =>
    let t := extract_streams_from_pipe env lookup refcnt rest (Nat.succ remaining)
    (t.1, PipeAction.consumedHeader :: t.2.1, t.2.2)
  | PwmRecord.stream dg md :: rest, Nat.succ remaining =>
    match lookup dg with
    | some bl =>
      if !md && refcnt bl ≠ 0 then
        if env.extractOk dg then
          let t := extract_streams_from_pipe env lookup refcnt rest remaining
          (t.1, PipeAction.extracted dg :: t.2.1, t.2.2)
        else
          (WIMLIB_ERR_WRITE, [PipeAction.extracted dg], Nat.succ remaining)
      else
        if env.skipOk dg then
          let t := extract_streams_from_pipe env lookup refcnt rest
            (Nat.succ remaining)
          (t.1, PipeAction.skipped dg md :: t.2.1, t.2.2)
        else (WIMLIB_ERR_READ, [PipeAction.skipped dg md], Nat.succ remaining)
    | none =>
      if env.skipOk dg then
        let t := extract_streams_from_pipe env lookup refcnt rest
          (Nat.succ remaining)
        (t.1, PipeAction.skipped dg md :: t.2.1, t.2.2)
      else (WIMLIB_ERR_READ, [PipeAction.skipped dg md], Nat.succ remaining)

/-- Number of extractions recorded in a pipe trace. -/
def countExtracted (tr : List PipeAction) : Nat :=
  (tr.filter fun a =>
    match a with
    | PipeAction.extracted _ => true
    | _ => false).length

@[simp] theorem countExtracted_nil : countExtracted [] = 0 := rfl

@[simp] theorem countExtracted_cons_skipped (dg : Nat) (md : Bool)
    (tr : List PipeAction) :
    countExtracted (PipeAction.skipped dg md :: tr) = countExtracted tr := rfl

@[simp] theorem countExtracted_cons_header (tr : List PipeAction) :
    countExtracted (PipeAction.consumedHeader :: tr) = countExtracted tr := rfl

@[simp] theorem countExtracted_cons_extracted (dg : Nat)
    (tr : List PipeAction) :
    countExtracted (PipeAction.extracted dg :: tr) =
      countExtracted tr + 1 := by
  simp [countExtracted]

/-! ### Claim C4 -/

/-- C4: in pipe extraction (with the per-record reads and writes
succeeding), every record skipped by read-and-discard is a metadata
record, has a digest absent from the blob table, or refers to a blob
with `out_refcnt = 0`; every record extracted refers to a blob with
`out_refcnt > 0`, and `num_streams_remaining` drops by exactly the
number of extracted records; the loop exits normally (result 0)
exactly when `num_streams_remaining` reaches 0. -/
theorem pipe_skip_extract_exit (env : PipeEnv) (lookup : Nat → Option Nat)
    (refcnt : Nat → Nat) (records : List PwmRecord) (remaining : Nat)
    (hext : ∀ dg, env.extractOk dg = true)
    (hskip : ∀ dg, env.skipOk dg = true) :
    (∀ dg md,
      PipeAction.skipped dg md ∈
          (extract_streams_from_pipe env lookup refcnt records remaining).2.1 →
        md = true ∨ lookup dg = none ∨
          (∃ bl, lookup dg = some bl ∧ refcnt bl = 0)) ∧
    (∀ dg,
      PipeAction.extracted dg ∈
          (extract_streams_from_pipe env lookup refcnt records remaining).2.1 →
        ∃ bl, lookup dg = some bl ∧ refcnt bl ≠ 0) ∧
    ((extract_streams_from_pipe env lookup refcnt records remaining).2.2 +
      countExtracted
        (extract_streams_from_pipe env lookup refcnt records remaining).2.1 =
      remaining) ∧
    ((extract_streams_from_pipe env lookup refcnt records remaining).1 = 0 ↔
      (extract_streams_from_pipe env lookup refcnt records remaining).2.2 = 0) := by
  induction records generalizing remaining with
  | nil =>
    cases remaining with
    | zero => simp [extract_streams_from_pipe]
    | succ n => simp [extract_streams_from_pipe, WIMLIB_ERR_READ]
  | cons r rest ih =>
    cases remaining with
    | zero => simp [extract_streams_from_pipe]
    | succ n =>
      cases r with
      | header =>
        obtain ⟨ih1, ih2, ih3, ih4⟩ := ih (Nat.succ n)
        simp only [extract_streams_from_pipe]
        refine ⟨?_, ?_, ?_, ih4⟩
        · intro dg' md' hmem
          rcases List.mem_cons.mp hmem with h | h
          · simp at h
          · exact ih1 dg' md' h
        · intro dg' hmem
          rcases List.mem_cons.mp hmem with h | h
          · simp at h
          · exact ih2 dg' h
        · simpa using ih3
      | stream dg md =>
        rcases hlu : lookup dg with _ | bl
        · obtain ⟨ih1, ih2, ih3, ih4⟩ := ih (Nat.succ n)
          simp only [extract_streams_from_pipe, hlu, hskip dg, if_true]
          refine ⟨?_, ?_, ?_, ih4⟩
          · intro dg' md' hmem
            rcases List.mem_cons.mp hmem with h | h
            · obtain ⟨h1, h2⟩ : dg' = dg ∧ md' = md := by
                simpa using h
              subst h1; exact Or.inr (Or.inl hlu)
            · exact ih1 dg' md' h
          · intro dg' hmem
            rcases List.mem_cons.mp hmem with h | h
            · simp at h
            · exact ih2 dg' h
          · simpa using ih3
        · by_cases hr : refcnt bl = 0
          · -- out_refcnt is zero: skip branch
            obtain ⟨ih1, ih2, ih3, ih4⟩ := ih (Nat.succ n)
            simp only [extract_streams_from_pipe, hlu, hr, hskip dg,
              ne_eq, not_true_eq_false, decide_False, Bool.and_false,
              Bool.false_eq_true, if_false, if_true]
            refine ⟨?_, ?_, ?_, ih4⟩
            · intro dg' md' hmem
              rcases List.mem_cons.mp hmem with h | h
              · obtain ⟨h1, h2⟩ : dg' = dg ∧ md' = md := by
                  simpa using h
                subst h1
                exact Or.inr (Or.inr ⟨bl, hlu, hr⟩)
              · exact ih1 dg' md' h
            · intro dg' hmem
              rcases List.mem_cons.mp hmem with h | h
              · simp at h
              · exact ih2 dg' h
            · simpa using ih3
          · cases md with
            | true =>
              -- metadata record: skip branch
              obtain ⟨ih1, ih2, ih3, ih4⟩ := ih (Nat.succ n)
              simp only [extract_streams_from_pipe, hlu, hskip dg,
                Bool.not_true, Bool.false_and, Bool.false_eq_true,
                if_false, if_true]
              refine ⟨?_, ?_, ?_, ih4⟩
              · intro dg' md' hmem
                rcases List.mem_cons.mp hmem with h | h
                · obtain ⟨h1, h2⟩ : dg' = dg ∧ md' = true := by
                    simpa using h
                  exact Or.inl h2
                · exact ih1 dg' md' h
              · intro dg' hmem
                rcases List.mem_cons.mp hmem with h | h
                · simp at h
                · exact ih2 dg' h
              · simpa using ih3
            | false =>
              -- referenced stream: extract branch, decrement remaining
              obtain ⟨ih1, ih2, ih3, ih4⟩ := ih n
              simp only [extract_streams_from_pipe, hlu, hr, hext dg,
                Bool.not_false, Bool.true_and, ne_eq, not_false_eq_true,
                decide_True, if_true]
              refine ⟨?_, ?_, ?_, ih4⟩
              · intro dg' md' hmem
                rcases List.mem_cons.mp hmem with h | h
                · simp at h
                · exact ih1 dg' md' h
              · intro dg' hmem
                rcases List.mem_cons.mp hmem with h | h
                · obtain h1 : dg' = dg := by simpa using h
                  subst h1
                  exact ⟨bl, hlu, hr⟩
                · exact ih2 dg' h
              · simp only [countExtracted_cons_extracted]
                omega

/-- Concrete pipe scenario for the C4 witness: two records, the first
carrying an unreferenced digest (skipped), the second a referenced
digest (extracted); one stream remains to extract. -/
def c4env : PipeEnv := { extractOk := fun _ => true, skipOk := fun _ => true }

def c4lookup : Nat → Option Nat := fun dg => if dg = 1 then some 1 else none

def c4refcnt : Nat → Nat := fun bl => if bl = 1 then 2 else 0

def c4records : List PwmRecord :=
  [PwmRecord.stream 5 false, PwmRecord.stream 1 false]

/-- Witness for C4: on the concrete scenario the loop exits normally
with `num_streams_remaining = 0` and exactly one extraction. -/
theorem pipe_skip_extract_exit_witness :
    (extract_streams_from_pipe c4env c4lookup c4refcnt c4records 1).2.2 +
        countExtracted
          (extract_streams_from_pipe c4env c4lookup c4refcnt c4records 1).2.1 =
        1 ∧
    (extract_streams_from_pipe c4env c4lookup c4refcnt c4records 1).1 = 0 :=
  ⟨(pipe_skip_extract_exit c4env c4lookup c4refcnt c4records 1
      (fun _ => rfl) (fun _ => rfl)).2.2.1,
   ((pipe_skip_extract_exit c4env c4lookup c4refcnt c4records 1
      (fun _ => rfl) (fun _ => rfl)).2.2.2).mpr (by decide)⟩

/-! ### Name sanitizer: `file_name_valid` and
`dentry_calculate_extraction_path` (src/extract.c:1377-1571)

Filenames are UTF-16LE; a name is modelled as the list of its code
units (`Nat`s), excluding the NUL terminator, i.e.
`file_name[0 .. file_name_nbytes/2)`.  The platform is a parameter
`win32` selecting the `__WIN32__` compilation of the code.  On the
non-Windows side `utf16le_to_tstr` converts the name into the
platform's multibyte encoding; the conversion is modelled as the
identity on code units. -/

/-- `replacement_char` (src/extract.c:1371-1375): U+FFFD on Windows,
`?` (63) elsewhere. -/
def replacement_char (win32 : Bool) : Nat :=
  if win32 then 0xfffd else 63

/-- The code units matched by the `switch` in `file_name_valid`
(src/extract.c:1385-1402): `/` (47) and NUL always; on Windows also
`\` (92), `:` (58), `*` (42), `?` (63), `"` (34), `<` (60), `>` (62)
and `|` (124). -/
def isForbiddenChar (win32 : Bool) (c : Nat) : Bool :=
  c = 47 || c = 0 ||
    (win32 &&
      (c = 92 || c = 58 || c = 42 || c = 63 || c = 34 || c = 60 ||
       c = 62 || c = 124))

/-- `file_name_valid(name, num_chars, fix=false)`
(src/extract.c:1377-1416): true iff no code unit is forbidden and, on
Windows, a nonempty name does not end in space (32) or dot (46). -/
def file_name_valid (win32 : Bool) (name : List Nat) : Bool :=
  if name.length = 0 then true
  else
    name.all (fun c => !isForbiddenChar win32 c) &&
      !(win32 && (name.getLast? = some 32 || name.getLast? = some 46))

/-- `file_name_valid(name, num_chars, fix=true)` on a copy of the
name: every forbidden code unit is replaced by `replacement_char`, and
afterwards, on Windows, a trailing space or dot is also replaced. -/
def file_name_fix (win32 : Bool) (name : List Nat) : List Nat :=
  let m := name.map
    (fun c => if isForbiddenChar win32 c then replacement_char win32 else c)
  if win32 && (m.getLast? = some 32 || m.getLast? = some 46) then
    m.dropLast ++ [replacement_char win32]
  else m

/-- `dentry_is_dot_or_dotdot` (src/extract.c:1418-1427), which reads
the NUL-terminated name: a NUL code unit inside the stored name acts
as a terminator for this check. -/
def dentry_is_dot_or_dotdot (name : List Nat) : Bool :=
  match name with
  | 46 :: rest =>
    match rest with
    | [] => true
    | 0 :: _ => true
    | 46 :: rest2 =>
      match rest2 with
      | [] => true
      | 0 :: _ => true
      | _ => false
    | _ => false
  | _ => false

/-- The suffix appended by `tsprintf(..., " (invalid filename #%lu)",
++ctx->invalid_sequence)` (src/extract.c:1554-1556), as code units. -/
def invalid_suffix (n : Nat) : List Nat :=
  (" (invalid filename #").toList.map Char.toNat ++
    (Nat.toDigits 10 n).map Char.toNat ++ [41]

/-- The fields of the apply context read by
`dentry_calculate_extraction_path`: the platform, the backend's
`supports_case_sensitive_filenames` capability, and the extract
flags.  `ctx->invalid_sequence` is threaded separately. -/
structure SanitizeCtx where
  win32 : Bool
  supports_case_sensitive_filenames : Bool
  flags : ExtractFlags
  deriving Repr, DecidableEq

/-- Outcome of `dentry_calculate_extraction_path` for one dentry. -/
inductive PathOutcome where
  /-- Extraction root or already-skipped dentry: nothing is set. -/
  | unchanged
  /-- `extraction_name` is set to the (converted) original name. -/
  | keep (name : List Nat)
  /-- A substitute `extraction_name` is set (`out_replace`). -/
  | replaced (name : List Nat)
  /-- The dentry and its whole subtree are marked skipped
  (`skip_dentry`). -/
  | skipSubtree
  deriving Repr, DecidableEq

/-- `dentry_calculate_extraction_path` (src/extract.c:1454-1571) for
one dentry.  `isRoot` is `dentry == ctx->extract_root`; `skipped` is
`dentry->extraction_skipped` on entry; `supported` is
`dentry_is_supported(dentry, &ctx->supported_features)`;
`hasCaseConflict` is whether the Windows-only case-insensitive
conflict list is nonempty; `seq` is `ctx->invalid_sequence`.  Returns
the outcome and the new `invalid_sequence` (memory allocation for the
substitute name is modelled as succeeding). -/
def dentry_calculate_extraction_path (ctx : SanitizeCtx)
    (isRoot skipped supported hasCaseConflict : Bool)
    (name : List Nat) (seq : Nat) : PathOutcome × Nat :=
  if isRoot || skipped then (PathOutcome.unchanged, seq)
  else if !supported then (PathOutcome.skipSubtree, seq)
  else if dentry_is_dot_or_dotdot name then (PathOutcome.skipSubtree, seq)
  else if ctx.win32 && !ctx.supports_case_sensitive_filenames &&
      hasCaseConflict then
    if ctx.flags.all_case_conflicts then
      (PathOutcome.replaced
        (file_name_fix ctx.win32 name ++ invalid_suffix (seq + 1)), seq + 1)
    else (PathOutcome.skipSubtree, seq)
  else if file_name_valid ctx.win32 name then (PathOutcome.keep name, seq)
  else if ctx.flags.replace_invalid_filenames then
    (PathOutcome.replaced
      (file_name_fix ctx.win32 name ++ invalid_suffix (seq + 1)), seq + 1)
  else (PathOutcome.skipSubtree, seq)

/-- A dentry subtree, carrying each dentry's `extraction_skipped`
flag. -/
inductive DentryTree where
  | node (skipped : Bool) (children : List DentryTree)

/- `for_dentry_in_tree(dentry, dentry_mark_skipped, NULL)`
(src/extract.c:1429-1434, 1568-1570): mark every dentry of the
subtree skipped. -/
mutual
def markTreeSkipped : DentryTree → DentryTree
  | DentryTree.node _ children => DentryTree.node true (markForestSkipped children)

def markForestSkipped : List DentryTree → List DentryTree
  | [] => []
  | t :: ts => markTreeSkipped t :: markForestSkipped ts
end

mutual
def allSkipped : DentryTree → Bool
  | DentryTree.node sk children => sk && allForestSkipped children

def allForestSkipped : List DentryTree → Bool
  | [] => true
  | t :: ts => allSkipped t && allForestSkipped ts
end

mutual
theorem allSkipped_mark (t : DentryTree) :
    allSkipped (markTreeSkipped t) = true := by
  cases t with
  | node sk children =>
    rw [markTreeSkipped, allSkipped, allForestSkipped_mark children]
    rfl

theorem allForestSkipped_mark (ts : List DentryTree) :
    allForestSkipped (markForestSkipped ts) = true := by
  cases ts with
  | nil => rfl
  | cons t ts' =>
    rw [markForestSkipped, allForestSkipped, allSkipped_mark t,
      allForestSkipped_mark ts']
    rfl
end

/-! ### Claim C5 -/

/-- C5: for a non-root dentry that reaches the filename check (not
already skipped, of a supported type, not `.`/`..`, and not diverted
into the Windows case-conflict branch) and whose name is invalid:
with `REPLACE_INVALID_FILENAMES` the extraction name becomes the name
with every forbidden code unit replaced by U+FFFD (Windows) or `?`
(POSIX) followed by the suffix `" (invalid filename #N)"`, with the
per-extraction counter incremented by one for this renamed dentry;
without the flag the outcome is skipping, which (via
`dentry_mark_skipped` over the subtree) marks every descendant
skipped. -/
theorem invalid_filename_replace_or_skip (ctx : SanitizeCtx)
    (hasCaseConflict : Bool) (name : List Nat) (seq : Nat)
    (hconfl : (ctx.win32 && !ctx.supports_case_sensitive_filenames &&
      hasCaseConflict) = false)
    (hdot : dentry_is_dot_or_dotdot name = false)
    (hinvalid : file_name_valid ctx.win32 name = false) :
    (ctx.flags.replace_invalid_filenames = true →
      dentry_calculate_extraction_path ctx false false true hasCaseConflict
          name seq =
        (PathOutcome.replaced
          (file_name_fix ctx.win32 name ++ invalid_suffix (seq + 1)),
         seq + 1)) ∧
    (ctx.flags.replace_invalid_filenames = false →
      dentry_calculate_extraction_path ctx false false true hasCaseConflict
          name seq = (PathOutcome.skipSubtree, seq) ∧
      ∀ t : DentryTree, allSkipped (markTreeSkipped t) = true) := by
  constructor
  · intro hflag
    simp [dentry_calculate_extraction_path, hconfl, hdot, hinvalid, hflag]
  · intro hflag
    refine ⟨?_, fun t => allSkipped_mark t⟩
    simp [dentry_calculate_extraction_path, hconfl, hdot, hinvalid, hflag]

/-- POSIX sanitizer context with `REPLACE_INVALID_FILENAMES` set. -/
def c5ctx : SanitizeCtx :=
  { win32 := false, supports_case_sensitive_filenames := true,
    flags := { replace_invalid_filenames := true } }

/-- Witness for C5 at the POSIX name `a/b`: the offending `/` becomes
`?` and `" (invalid filename #1)"` is appended, with the counter
advanced from 0 to 1. -/
theorem invalid_filename_replace_or_skip_witness :
    dentry_calculate_extraction_path c5ctx false false true false
        [97, 47, 98] 0 =
      (PathOutcome.replaced
        (file_name_fix false [97, 47, 98] ++ invalid_suffix 1), 1) :=
  (invalid_filename_replace_or_skip c5ctx false [97, 47, 98] 0
    (by decide) (by decide) (by decide)).1 rfl

/-! ### Feature check: `do_feature_check` (src/extract.c:1648-1831)

`struct wim_features` tallies per-feature counts; the backend's
`supported_features` uses the same structure with each field nonzero
iff supported.  The field name `not_context_indexed_files` keeps the
source's spelling.  The `WARNING(...)` calls of `do_feature_check`
print diagnostics and do not affect control flow or the return value,
so the embedding keeps only the error-returning conditions, in source
order.  `has_set_timestamps` is `ops->set_timestamps != NULL`. -/

structure WimFeatures where
  archive_files : Nat := 0
  hidden_files : Nat := 0
  system_files : Nat := 0
  compressed_files : Nat := 0
  encrypted_files : Nat := 0
  not_context_indexed_files : Nat := 0
  sparse_files : Nat := 0
  named_data_streams : Nat := 0
  hard_links : Nat := 0
  reparse_points : Nat := 0
  symlink_reparse_points : Nat := 0
  other_reparse_points : Nat := 0
  security_descriptors : Nat := 0
  short_names : Nat := 0
  unix_data : Nat := 0
  deriving Repr, DecidableEq

/-- `do_feature_check` (src/extract.c:1648-1831): the error-returning
checks, in order (src/extract.c:1782-1830). -/
def do_feature_check (required supported : WimFeatures)
    (flags : ExtractFlags) (has_set_timestamps : Bool) : Nat :=
  if flags.unix_data = true ∧ required.unix_data ≠ 0 ∧
      supported.unix_data = 0 then
    WIMLIB_ERR_UNSUPPORTED
  else if flags.strict_short_names = true ∧ required.short_names ≠ 0 ∧
      supported.short_names = 0 then
    WIMLIB_ERR_UNSUPPORTED
  else if flags.strict_timestamps = true ∧ has_set_timestamps = false then
    WIMLIB_ERR_UNSUPPORTED
  else if flags.strict_acls = true ∧ flags.unix_data = false ∧
      required.security_descriptors ≠ 0 ∧
      supported.security_descriptors = 0 then
    WIMLIB_ERR_UNSUPPORTED
  else if flags.hardlink = true ∧ supported.hard_links = 0 then
    WIMLIB_ERR_UNSUPPORTED
  else if flags.symlink = true ∧ supported.symlink_reparse_points = 0 then
    WIMLIB_ERR_UNSUPPORTED
  else 0

/-! ### Claim C6 -/

/-- C6: `do_feature_check` returns the hard error `UNSUPPORTED`
exactly when: `UNIX_DATA` is requested for an image with UNIX data on
a backend without it; `STRICT_SHORT_NAMES` with required-but-
unsupported short names; `STRICT_TIMESTAMPS` on a backend without
`set_timestamps`; `STRICT_ACLS` (without `UNIX_DATA`) with required-
but-unsupported security descriptors; `HARDLINK` without hard-link
support; or `SYMLINK` without symlink-reparse-point support.  In
every other case (all remaining mismatches are warning-only) it
returns success. -/
theorem feature_check_unsupported_iff (required supported : WimFeatures)
    (flags : ExtractFlags) (has_set_timestamps : Bool) :
    (do_feature_check required supported flags has_set_timestamps =
        WIMLIB_ERR_UNSUPPORTED ↔
      ((flags.unix_data = true ∧ required.unix_data ≠ 0 ∧
          supported.unix_data = 0) ∨
       (flags.strict_short_names = true ∧ required.short_names ≠ 0 ∧
          supported.short_names = 0) ∨
       (flags.strict_timestamps = true ∧ has_set_timestamps = false) ∨
       (flags.strict_acls = true ∧ flags.unix_data = false ∧
          required.security_descriptors ≠ 0 ∧
          supported.security_descriptors = 0) ∨
       (flags.hardlink = true ∧ supported.hard_links = 0) ∨
       (flags.symlink = true ∧ supported.symlink_reparse_points = 0))) ∧
    (do_feature_check required supported flags has_set_timestamps = 0 ↔
      ¬((flags.unix_data = true ∧ required.unix_data ≠ 0 ∧
          supported.unix_data = 0) ∨
       (flags.strict_short_names = true ∧ required.short_names ≠ 0 ∧
          supported.short_names = 0) ∨
       (flags.strict_timestamps = true ∧ has_set_timestamps = false) ∨
       (flags.strict_acls = true ∧ flags.unix_data = false ∧
          required.security_descriptors ≠ 0 ∧
          supported.security_descriptors = 0) ∨
       (flags.hardlink = true ∧ supported.hard_links = 0) ∨
       (flags.symlink = true ∧ supported.symlink_reparse_points = 0))) := by
  unfold do_feature_check
  split_ifs with h1 h2 h3 h4 h5 h6
  · exact ⟨iff_of_true rfl (Or.inl h1),
      iff_of_false (by decide) (not_not_intro (Or.inl h1))⟩
  · exact ⟨iff_of_true rfl (Or.inr (Or.inl h2)),
      iff_of_false (by decide) (not_not_intro (Or.inr (Or.inl h2)))⟩
  · exact ⟨iff_of_true rfl (Or.inr (Or.inr (Or.inl h3))),
      iff_of_false (by decide) (not_not_intro (Or.inr (Or.inr (Or.inl h3))))⟩
  · exact ⟨iff_of_true rfl (Or.inr (Or.inr (Or.inr (Or.inl h4)))),
      iff_of_false (by decide)
        (not_not_intro (Or.inr (Or.inr (Or.inr (Or.inl h4)))))⟩
  · exact ⟨iff_of_true rfl
      (Or.inr (Or.inr (Or.inr (Or.inr (Or.inl h5))))),
      iff_of_false (by decide)
        (not_not_intro (Or.inr (Or.inr (Or.inr (Or.inr (Or.inl h5))))))⟩
  · exact ⟨iff_of_true rfl
      (Or.inr (Or.inr (Or.inr (Or.inr (Or.inr h6))))),
      iff_of_false (by decide)
        (not_not_intro (Or.inr (Or.inr (Or.inr (Or.inr (Or.inr h6))))))⟩
  · have hnd :
        ¬((flags.unix_data = true ∧ required.unix_data ≠ 0 ∧
            supported.unix_data = 0) ∨
          (flags.strict_short_names = true ∧ required.short_names ≠ 0 ∧
            supported.short_names = 0) ∨
          (flags.strict_timestamps = true ∧ has_set_timestamps = false) ∨
          (flags.strict_acls = true ∧ flags.unix_data = false ∧
            required.security_descriptors ≠ 0 ∧
            supported.security_descriptors = 0) ∨
          (flags.hardlink = true ∧ supported.hard_links = 0) ∨
          (flags.symlink = true ∧ supported.symlink_reparse_points = 0)) := by
      rintro (h | h | h | h | h | h)
      exacts [h1 h, h2 h, h3 h, h4 h, h5 h, h6 h]
    exact ⟨iff_of_false (by decide) hnd, iff_of_true rfl hnd⟩

/-! ### Command validation: `check_extract_command`
(src/extract.c:2152-2222)

`withNtfs3g` is the `WITH_NTFS_3G` build configuration;
`wim_header_rpfix` is `wim_header_flags & WIM_HDR_FLAG_RP_FIX`.
A command's `fs_dest_path` and `wim_source_path` are lists of code
units; `fs_dest_path[0] == '\0'` becomes emptiness of the list. -/

structure ExtractCommand where
  wim_source_path : List Nat
  fs_dest_path : List Nat
  extract_flags : ExtractFlags
  deriving Repr, DecidableEq

/-- `check_extract_command` (src/extract.c:2152-2222): validates one
command and returns it with its flags possibly rewritten (the RPFIX
default and the UNIX_DATA/SEQUENTIAL adjustment). -/
def check_extract_command (withNtfs3g : Bool) (wim_header_rpfix : Bool)
    (cmd : ExtractCommand) : Except Nat ExtractCommand :=
  if cmd.fs_dest_path = [] then Except.error WIMLIB_ERR_INVALID_PARAM
  else if cmd.extract_flags.symlink = true ∧
      cmd.extract_flags.hardlink = true then
    Except.error WIMLIB_ERR_INVALID_PARAM
  else if cmd.extract_flags.no_acls = true ∧
      cmd.extract_flags.strict_acls = true then
    Except.error WIMLIB_ERR_INVALID_PARAM
  else if cmd.extract_flags.rpfix = true ∧
      cmd.extract_flags.norpfix = true then
    Except.error WIMLIB_ERR_INVALID_PARAM
  else if cmd.extract_flags.ntfs = true ∧ withNtfs3g = false then
    Except.error WIMLIB_ERR_UNSUPPORTED
  else
    let f1 :=
      if cmd.extract_flags.rpfix = false ∧
          cmd.extract_flags.norpfix = false ∧ wim_header_rpfix = true then
        { cmd.extract_flags with rpfix := true }
      else cmd.extract_flags
    let f2 :=
      if f1.unix_data = true ∧ f1.sequential = true ∧
          f1.from_pipe = false then
        { f1 with sequential := false }
      else f1
    Except.ok { cmd with extract_flags := f2 }

/-! ### Claim C7 -/

/-- A command that extracts the subtree `a` (a nonempty
`wim_source_path`, so not a full image), with neither `RPFIX` nor
`NORPFIX` given. -/
def c7cmd : ExtractCommand :=
  { wim_source_path := [97], fs_dest_path := [98], extract_flags := {} }

/-- C7: evaluation at the failing input.  With neither `RPFIX` nor
`NORPFIX` given and the archive header's RPFIX flag set,
`check_extract_command` enables reparse-point fixup even though a
subtree (`wim_source_path` nonempty), not a full image, is being
extracted: the code at src/extract.c:2190-2197 consults only the
header flag, never `wim_source_path`, contradicting its own comment
("... and we are extracting a full image") and the spec. -/
theorem rpfix_default_set_for_subtree :
    c7cmd.wim_source_path ≠ [] ∧
    check_extract_command true true c7cmd =
      Except.ok { c7cmd with extract_flags := { rpfix := true } } :=
  ⟨by decide, rfl⟩

/-! ### Claim C10 -/

/-- C10: for a command that passes the flag-combination validations
and has both `UNIX_DATA` and `SEQUENTIAL` set: without `FROM_PIPE`,
`check_extract_command` clears `SEQUENTIAL` (warning only) so the
extraction runs single-pass; with `FROM_PIPE` also set, `SEQUENTIAL`
is kept.  The other flags are returned as validated (only the RPFIX
default may additionally be set). -/
theorem unix_data_sequential_cleared (withNtfs3g wim_header_rpfix : Bool)
    (cmd : ExtractCommand)
    (hdest : cmd.fs_dest_path ≠ [])
    (hlink : ¬(cmd.extract_flags.symlink = true ∧
      cmd.extract_flags.hardlink = true))
    (hacls : ¬(cmd.extract_flags.no_acls = true ∧
      cmd.extract_flags.strict_acls = true))
    (hrp : ¬(cmd.extract_flags.rpfix = true ∧
      cmd.extract_flags.norpfix = true))
    (hntfs : ¬(cmd.extract_flags.ntfs = true ∧ withNtfs3g = false))
    (hud : cmd.extract_flags.unix_data = true)
    (hseq : cmd.extract_flags.sequential = true) :
    (cmd.extract_flags.from_pipe = false →
      ((check_extract_command withNtfs3g wim_header_rpfix cmd).toOption.map
        (fun c => (c.extract_flags.sequential, c.extract_flags.unix_data))) =
        some (false, true)) ∧
    (cmd.extract_flags.from_pipe = true →
      ((check_extract_command withNtfs3g wim_header_rpfix cmd).toOption.map
        (fun c => (c.extract_flags.sequential, c.extract_flags.unix_data))) =
        some (true, true)) := by
  constructor
  · intro hfp
    unfold check_extract_command
    rw [if_neg hdest, if_neg hlink, if_neg hacls, if_neg hrp, if_neg hntfs]
    dsimp only
    by_cases hdef : cmd.extract_flags.rpfix = false ∧
        cmd.extract_flags.norpfix = false ∧ wim_header_rpfix = true
    · rw [if_pos hdef]
      simp [Except.toOption, hud, hseq, hfp]
    · rw [if_neg hdef]
      simp [Except.toOption, hud, hseq, hfp]
  · intro hfp
    unfold check_extract_command
    rw [if_neg hdest, if_neg hlink, if_neg hacls, if_neg hrp, if_neg hntfs]
    dsimp only
    by_cases hdef : cmd.extract_flags.rpfix = false ∧
        cmd.extract_flags.norpfix = false ∧ wim_header_rpfix = true
    · rw [if_pos hdef]
      simp [Except.toOption, hud, hseq, hfp]
    · rw [if_neg hdef]
      simp [Except.toOption, hud, hseq, hfp]

/-- An `UNIX_DATA | SEQUENTIAL` command for the C10 witness. -/
def c10cmd : ExtractCommand :=
  { wim_source_path := [], fs_dest_path := [98],
    extract_flags := { sequential := true, unix_data := true } }

/-- Witness for C10: validating the concrete command clears
`SEQUENTIAL` while keeping `UNIX_DATA`. -/
theorem unix_data_sequential_cleared_witness :
    ((check_extract_command true false c10cmd).toOption.map
      (fun c => (c.extract_flags.sequential, c.extract_flags.unix_data))) =
      some (false, true) :=
  (unix_data_sequential_cleared true false c10cmd (by decide) (by decide)
    (by decide) (by decide) (by decide) rfl rfl).1 rfl

/-! ### Stdout extraction: `extract_dentry_to_stdout`
(src/extract.c:1347-1369) and the dispatch in `extract_tree`
(src/extract.c:1984-2124)

The inode attribute bits `FILE_ATTRIBUTE_DIRECTORY` and
`FILE_ATTRIBUTE_REPARSE_POINT` tested by the function become `Bool`
fields (distinct bits of `i_attributes`). -/

structure StdoutInode where
  directory : Bool
  reparse_point : Bool
  /-- `inode_unnamed_lte_resolved(dentry->d_inode)`. -/
  unnamed : Option Nat
  deriving Repr, DecidableEq

/-- `extract_dentry_to_stdout` (src/extract.c:1347-1369): returns the
result code and the list of blobs whose contents are written
(`extract_wim_resource_to_fd` to `STDOUT_FILENO`); `writeOk` is
whether that write succeeds. -/
def extract_dentry_to_stdout (writeOk : Bool) (ino : StdoutInode) :
    Nat × List Nat :=
  if ino.reparse_point || ino.directory then
    (WIMLIB_ERR_NOT_A_REGULAR_FILE, [])
  else
    match ino.unnamed with
    | some b => if writeOk then (0, [b]) else (WIMLIB_ERR_WRITE, [b])
    | none => (0, [])

/-- The extraction phases of `extract_tree` that can run after the
planning pass (src/extract.c:1984-2124). -/
inductive TreePhase where
  /-- `extract_dentry_to_stdout(root)` followed directly by teardown
  (src/extract.c:1988-1991), on success and on error alike. -/
  | stdoutOnly
  /-- `for_dentry_in_tree(root, dentry_extract_skeleton, ...)`. -/
  | skeleton
  /-- `extract_streams_from_pipe`. -/
  | streamsFromPipe
  /-- `extract_stream_list`. -/
  | streamsList
  /-- `for_dentry_in_tree(root, dentry_extract, ...)`: combined
  skeleton and stream extraction per dentry. -/
  | singlePass
  /-- `for_dentry_in_tree_depth(root, dentry_extract_final, ...)`:
  security descriptors and timestamps. -/
  | finalize
  deriving Repr, DecidableEq

/-- Which phases `extract_tree` runs after planning when every phase
it starts succeeds (src/extract.c:1984-2124). -/
def extract_tree_phases (flags : ExtractFlags) : List TreePhase :=
  if flags.to_stdout then [TreePhase.stdoutOnly]
  else if flags.sequential || flags.from_pipe then
    [TreePhase.skeleton,
     if flags.from_pipe then TreePhase.streamsFromPipe
     else TreePhase.streamsList,
     TreePhase.finalize]
  else [TreePhase.singlePass, TreePhase.finalize]

/-! ### Claim C8 -/

/-- C8: with `TO_STDOUT`, if the root dentry has the DIRECTORY or
REPARSE_POINT attribute the extraction fails with
`NOT_A_REGULAR_FILE` writing nothing; otherwise exactly the root's
unnamed data stream (or nothing, if the inode has none) is written to
standard output; and `extract_tree` runs no phase other than the
stdout extraction — no skeleton, stream, or finalization pass touches
any other dentry, named stream or metadata. -/
theorem to_stdout_regular_file_only (writeOk : Bool) (ino : StdoutInode)
    (flags : ExtractFlags) :
    ((ino.reparse_point || ino.directory) = true →
      extract_dentry_to_stdout writeOk ino =
        (WIMLIB_ERR_NOT_A_REGULAR_FILE, [])) ∧
    ((ino.reparse_point || ino.directory) = false →
      (extract_dentry_to_stdout writeOk ino).2 = ino.unnamed.toList ∧
      (writeOk = true → (extract_dentry_to_stdout writeOk ino).1 = 0)) ∧
    (flags.to_stdout = true →
      extract_tree_phases flags = [TreePhase.stdoutOnly]) := by
  refine ⟨?_, ?_, ?_⟩
  · intro h
    simp [extract_dentry_to_stdout, h]
  · intro h
    constructor
    · cases hu : ino.unnamed with
      | none => simp [extract_dentry_to_stdout, h, hu]
      | some b =>
        by_cases hw : writeOk <;> simp [extract_dentry_to_stdout, h, hu, hw]
    · intro hw
      cases hu : ino.unnamed with
      | none => simp [extract_dentry_to_stdout, h, hu]
      | some b => simp [extract_dentry_to_stdout, h, hu, hw]
  · intro h
    simp [extract_tree_phases, h]

/-- Witness for C8: a directory inode fails with
`NOT_A_REGULAR_FILE` and nothing written; a regular-file inode writes
exactly its unnamed stream; `TO_STDOUT` runs only the stdout phase. -/
theorem to_stdout_regular_file_only_witness :
    extract_dentry_to_stdout true
        { directory := true, reparse_point := false, unnamed := some 3 } =
      (WIMLIB_ERR_NOT_A_REGULAR_FILE, []) ∧
    (extract_dentry_to_stdout true
        { directory := false, reparse_point := false, unnamed := some 3 }).2 =
      (some 3 : Option Nat).toList ∧
    extract_tree_phases { to_stdout := true } = [TreePhase.stdoutOnly] :=
  ⟨(to_stdout_regular_file_only true
      { directory := true, reparse_point := false, unnamed := some 3 }
      { to_stdout := true }).1 rfl,
   ((to_stdout_regular_file_only true
      { directory := false, reparse_point := false, unnamed := some 3 }
      { to_stdout := true }).2.1 rfl).1,
   (to_stdout_regular_file_only true
      { directory := true, reparse_point := false, unnamed := some 3 }
      { to_stdout := true }).2.2 rfl⟩

/-! ### `do_wimlib_extract_files` (src/extract.c:2227-2278)

The embedding starts at the command-validation loop
(src/extract.c:2249-2265); the preceding image selection and stream
checksumming are outside the claims and assumed successful.  The
execution loop (src/extract.c:2268-2276) is represented by returning
the list of validated commands that get passed to `extract_tree`;
on a validation error that list is empty. -/

/-- `cmds[i].extract_flags & (WIMLIB_EXTRACT_FLAG_SYMLINK |
WIMLIB_EXTRACT_FLAG_HARDLINK)` as tested by the validation loop. -/
def cmd_is_linked (c : ExtractCommand) : Bool :=
  c.extract_flags.symlink || c.extract_flags.hardlink

/-- The validation loop with its `found_link_cmd` / `found_nolink_cmd`
accumulators (src/extract.c:2235-2236, 2249-2265). -/
def validate_extract_cmds (withNtfs3g wim_header_rpfix : Bool) :
    List ExtractCommand → Bool → Bool → Except Nat (List ExtractCommand)
  | [], _, _ => Except.ok []
  | c :: rest, found_link, found_nolink =>
    match check_extract_command withNtfs3g wim_header_rpfix c with
    | Except.error e => Except.error e
    | Except.ok c' =>
      let fl := found_link || cmd_is_linked c'
      let fn := found_nolink || !cmd_is_linked c'
      if fl && fn then Except.error WIMLIB_ERR_INVALID_PARAM
      else
        match validate_extract_cmds withNtfs3g wim_header_rpfix rest fl fn with
        | Except.error e => Except.error e
        | Except.ok rest' => Except.ok (c' :: rest')

/-- `do_wimlib_extract_files` from the validation loop on: the result
and the commands actually executed. -/
def do_wimlib_extract_files (withNtfs3g wim_header_rpfix : Bool)
    (cmds : List ExtractCommand) : Except Nat Unit × List ExtractCommand :=
  match validate_extract_cmds withNtfs3g wim_header_rpfix cmds false false with
  | Except.error e => (Except.error e, [])
  | Except.ok cmds' => (Except.ok (), cmds')

/-- `check_extract_command` never alters the SYMLINK/HARDLINK bits of
a command it accepts. -/
theorem check_preserves_linked (w h : Bool) (c c' : ExtractCommand)
    (hok : check_extract_command w h c = Except.ok c') :
    cmd_is_linked c' = cmd_is_linked c := by
  unfold check_extract_command at hok
  split_ifs at hok <;>
    (simp only [Except.ok.injEq] at hok
     subst hok
     simp only [cmd_is_linked]
     split_ifs <;> rfl)

/-- The error codes `check_extract_command` can produce: always
`INVALID_PARAM`, except for an NTFS command in a build without
NTFS-3g support. -/
theorem check_error_codes (w h : Bool) (c : ExtractCommand) (e : Nat)
    (herr : check_extract_command w h c = Except.error e) :
    e = WIMLIB_ERR_INVALID_PARAM ∨
      (c.extract_flags.ntfs = true ∧ w = false) := by
  unfold check_extract_command at herr
  split_ifs at herr with g1 g2 g3 g4 g5
  · injection herr with hh; exact Or.inl hh.symm
  · injection herr with hh; exact Or.inl hh.symm
  · injection herr with hh; exact Or.inl hh.symm
  · injection herr with hh; exact Or.inl hh.symm
  · exact Or.inr g5

/-- In a configuration where no command trips the NTFS build error,
any error of the validation loop is `INVALID_PARAM`. -/
theorem validate_error_invalid_param (w h : Bool)
    (cmds : List ExtractCommand) (fl fn : Bool) (e : Nat)
    (hntfs : ∀ c ∈ cmds, c.extract_flags.ntfs = true → w = true)
    (herr : validate_extract_cmds w h cmds fl fn = Except.error e) :
    e = WIMLIB_ERR_INVALID_PARAM := by
  induction cmds generalizing fl fn with
  | nil => exact absurd herr (by simp [validate_extract_cmds])
  | cons c rest ih =>
    rw [validate_extract_cmds] at herr
    cases hchk : check_extract_command w h c with
    | error e' =>
      rw [hchk] at herr
      injection herr with hh
      rcases check_error_codes w h c e' hchk with h1 | h1
      · exact hh.symm.trans h1
      · exact absurd (hntfs c (by simp) h1.1) (by simp [h1.2])
    | ok c' =>
      rw [hchk] at herr
      dsimp only at herr
      split_ifs at herr with hif
      · injection herr with hh; exact hh.symm
      · cases hrec : validate_extract_cmds w h rest
            (fl || cmd_is_linked c') (fn || !cmd_is_linked c') with
        | error e'' =>
          rw [hrec] at herr
          injection herr with hh
          subst hh
          exact ih _ _ (fun c0 hc0 => hntfs c0 (by simp [hc0])) hrec
        | ok rest' =>
          rw [hrec] at herr
          exact absurd herr (by simp)

/-- If the remaining commands (together with the accumulators) contain
both a linked and a non-linked command, the validation loop fails. -/
theorem validate_mixed_errors (w h : Bool) (cmds : List ExtractCommand)
    (fl fn : Bool) (hflfn : (fl && fn) = false)
    (hl : fl = true ∨ ∃ c ∈ cmds, cmd_is_linked c = true)
    (hn : fn = true ∨ ∃ c ∈ cmds, cmd_is_linked c = false) :
    ∃ e, validate_extract_cmds w h cmds fl fn = Except.error e := by
  induction cmds generalizing fl fn with
  | nil =>
    rcases hl with hl | ⟨c, hc, _⟩
    · rcases hn with hn | ⟨c, hc, _⟩
      · rw [hl, hn] at hflfn; exact absurd hflfn (by simp)
      · exact absurd hc (by simp)
    · exact absurd hc (by simp)
  | cons c rest ih =>
    rw [validate_extract_cmds]
    cases hchk : check_extract_command w h c with
    | error e => exact ⟨e, rfl⟩
    | ok c' =>
      dsimp only
      by_cases hif : ((fl || cmd_is_linked c') &&
          (fn || !cmd_is_linked c')) = true
      · rw [if_pos hif]
        exact ⟨WIMLIB_ERR_INVALID_PARAM, rfl⟩
      · rw [if_neg hif]
        have hpres := check_preserves_linked w h c c' hchk
        have hl' : (fl || cmd_is_linked c') = true ∨
            ∃ c0 ∈ rest, cmd_is_linked c0 = true := by
          rcases hl with hfl | ⟨c0, hc0, hlc0⟩
          · exact Or.inl (by simp [hfl])
          · rcases List.mem_cons.mp hc0 with rfl | hc0r
            · exact Or.inl (by simp [hpres, hlc0])
            · exact Or.inr ⟨c0, hc0r, hlc0⟩
        have hn' : (fn || !cmd_is_linked c') = true ∨
            ∃ c0 ∈ rest, cmd_is_linked c0 = false := by
          rcases hn with hfn | ⟨c0, hc0, hlc0⟩
          · exact Or.inl (by simp [hfn])
          · rcases List.mem_cons.mp hc0 with rfl | hc0r
            · exact Or.inl (by simp [hpres, hlc0])
            · exact Or.inr ⟨c0, hc0r, hlc0⟩
        obtain ⟨e, he⟩ := ih _ _ (by simpa using hif) hl' hn'
        rw [he]
        exact ⟨e, rfl⟩

/-! ### Claim C9 -/

/-- C9: if among the commands of one `wimlib_extract_files` call at
least one has the SYMLINK or HARDLINK flag and at least one has
neither, the call returns `INVALID_PARAM` and no extraction command
is executed.  (Side condition: no command trips the unrelated
NTFS-without-NTFS-3g build error, whose code is `UNSUPPORTED`; every
other validation failure is itself `INVALID_PARAM`.) -/
theorem mixed_link_cmds_invalid_param (w h : Bool)
    (cmds : List ExtractCommand)
    (hntfs : ∀ c ∈ cmds, c.extract_flags.ntfs = true → w = true)
    (hl : ∃ c ∈ cmds, cmd_is_linked c = true)
    (hn : ∃ c ∈ cmds, cmd_is_linked c = false) :
    do_wimlib_extract_files w h cmds =
      (Except.error WIMLIB_ERR_INVALID_PARAM, []) := by
  obtain ⟨e, he⟩ := validate_mixed_errors w h cmds false false rfl
    (Or.inr hl) (Or.inr hn)
  have heq := validate_error_invalid_param w h cmds false false e hntfs he
  subst heq
  simp [do_wimlib_extract_files, he]

/-- Commands for the C9 witness: one symlink-mode command and one
plain command. -/
def c9cmds : List ExtractCommand :=
  [{ wim_source_path := [], fs_dest_path := [97],
     extract_flags := { symlink := true } },
   { wim_source_path := [], fs_dest_path := [98], extract_flags := {} }]

/-- Witness for C9 on the concrete mixed command list. -/
theorem mixed_link_cmds_invalid_param_witness :
    do_wimlib_extract_files false false c9cmds =
      (Except.error WIMLIB_ERR_INVALID_PARAM, []) :=
  mixed_link_cmds_invalid_param false false c9cmds (by decide)
    ⟨c9cmds.head (by decide), by decide⟩
    ⟨c9cmds.getLast (by decide), by decide⟩

end Wimlib
